import Mathlib

/-!
Shallow embedding of the `operator` Go library (jaz303/operator): the
OpContext lifecycle state machine, the Hub event registry/dispatcher, and
the Invoke/InvokeTx orchestrators, together with proofs about the claims
of the specification.

Modelling conventions:
* Transactions (the generic parameter `T Transaction`) are modelled as `Nat`,
  with `0` playing the role of Go's zero value (the "unbound" sentinel used
  by `isTransactionActive`).
* The lifecycle `state` field is a `Nat`, mirroring the Go `iota` constants;
  the source compares states with `<=`, so the numeric order matters.
* Events are pairs of a type identity (`reflect.TypeOf`) and a payload.
* Errors are an inductive type: `errInvalidState` models `ErrInvalidState`,
  `errRecoveredInt`/`errRecoveredErr` model the two `fmt.Errorf` forms built
  around `ErrRecovered` in `invokeWithRecover`, `commitFailed` models the
  `fmt.Errorf("commit operation failed (%s)", err)` wrapper in Invoke and
  InvokeTx, and `user n` stands for arbitrary application errors.
* Side effects on the external transaction (Commit/Rollback calls), event
  dispatch, after-hook invocation and orchestrator steps are recorded in a
  ghost trace (`TraceEv`) so that claims about which effects occur, and in
  which order, can be stated.
* User callbacks (operation bodies, event handlers) mutate the OpContext
  through a pointer in Go; they are modelled as state transformers on the
  OpCtx record.
-/

/-- Go error values relevant to the engine. -/
inductive GoErr where
  | errInvalidState : GoErr
  | errRecoveredInt : Int → GoErr
  | errRecoveredErr : GoErr → GoErr
  | commitFailed : GoErr → GoErr
  | user : Nat → GoErr
deriving DecidableEq, Repr

/-- A value passed to Go `panic`: either a non-error value (modelled as an
integer) or an error value; `invokeWithRecover` treats the two differently. -/
inductive PanicVal where
  | intVal : Int → PanicVal
  | errVal : GoErr → PanicVal
deriving DecidableEq, Repr

/-- An event: `ty` models `reflect.TypeOf(evt)` (dispatch key), `payload`
the event's data. -/
structure Event where
  ty : Nat
  payload : Nat
deriving DecidableEq, Repr

-- Lifecycle states, mirroring the Go iota block.
def stateActive : Nat := 0
def stateDispatchEvents : Nat := 1
def stateInvokeAfter : Nat := 2
def stateSuccess : Nat := 3
def stateFailed : Nat := 4
def stateRolledback : Nat := 5

/-- The OpContext record: lifecycle state, bound transaction (0 = Go zero
value, i.e. unbound), buffered events, buffered after-hooks (hooks are
opaque, identified by `Nat`). The `hub` and `beginTransaction` fields of the
Go struct are passed as explicit parameters to the functions below. -/
structure OpCtx where
  state : Nat
  activeTx : Nat
  events : List Event
  after : List Nat
deriving DecidableEq, Repr

/-- OpContext as produced by `Hub.BeginOperation`: zero value of every
field except the context/hub references. -/
def beginOperation : OpCtx :=
  { state := stateActive, activeTx := 0, events := [], after := [] }

/-- `func (o *OpContext[T]) isTransactionActive() bool`:
`var zero T; return o.activeTx != zero`. -/
def OpCtx.isTransactionActive (o : OpCtx) : Bool :=
  o.activeTx != 0

/-- `func (o *OpContext[T]) Emit(evt Event) error`. Source:
`if o.state <= stateDispatchEvents { return ErrInvalidState };
o.events = append(o.events, evt); return nil`. -/
def OpCtx.Emit (o : OpCtx) (evt : Event) : OpCtx × Option GoErr :=
  if o.state ≤ stateDispatchEvents then
    (o, some GoErr.errInvalidState)
  else
    ({ o with events := o.events ++ [evt] }, none)

/-- `func (o *OpContext[T]) AfterFunc(fn AfterFunc[T]) error`. Source:
`if o.state != stateActive && o.state != stateDispatchEvents { return
ErrInvalidState }; o.after = append(o.after, fn); return nil`. -/
def OpCtx.AfterFunc (o : OpCtx) (fn : Nat) : OpCtx × Option GoErr :=
  if o.state ≠ stateActive ∧ o.state ≠ stateDispatchEvents then
    (o, some GoErr.errInvalidState)
  else
    ({ o with after := o.after ++ [fn] }, none)

/-- `func (o *OpContext[T]) Tx() (T, error)`. The transaction factory
`o.beginTransaction` is passed as `p`, indexed by a ghost invocation
counter `calls` so that the number of factory invocations is observable.
Returns (updated ctx, updated counter, returned transaction, error).
Source: `var zero T; if !o.isTransactionActive() { tx, err :=
o.beginTransaction(o.Context); if err != nil { return zero, err };
o.activeTx = tx }; return o.activeTx, nil`. -/
def OpCtx.Tx (p : Nat → Nat × Option GoErr) (calls : Nat) (o : OpCtx) :
    OpCtx × Nat × Nat × Option GoErr :=
  if o.isTransactionActive then
    (o, calls, o.activeTx, none)
  else
    match p calls with
    | (_, some e) => (o, calls + 1, 0, some e)
    | (tx, none) => ({ o with activeTx := tx }, calls + 1, tx, none)

/-- Iterate `OpCtx.Tx` a given number of times (models an operation body
that calls `ctx.Tx()` repeatedly), collecting the (tx, err) result of each
call. -/
def txIter (p : Nat → Nat × Option GoErr) :
    Nat → Nat → OpCtx → OpCtx × Nat × List (Nat × Option GoErr)
  | 0, calls, o => (o, calls, [])
  | n + 1, calls, o =>
    let r := OpCtx.Tx p calls o
    let rest := txIter p n r.2.1 r.1
    (rest.1, rest.2.1, (r.2.2.1, r.2.2.2) :: rest.2.2)

/-- An event handler binding as stored in the Hub's registry
(`eventHandler.Dispatch(op, evt) error`). Handlers are arbitrary user
callbacks: in Go they receive the `*OpContext` pointer, so we model them
as state transformers on the OpCtx together with a returned error. -/
structure Handler where
  run : OpCtx → Event → OpCtx × Option GoErr

/-- The Hub's registry: `eventHandlers map[reflect.Type][]eventHandler[Tx]`,
keyed by the event's type identity. (The Hub's `beginTransaction` field is
passed separately to the functions that need it.) -/
structure Hub where
  handlers : Nat → List Handler

/-- The loop body of `Hub.dispatchEvent`: invoke each registered binding's
`Dispatch` in registration order, short-circuiting at the first failure.
Also returns the number of handlers invoked (ghost observation). -/
def runHandlers : List Handler → OpCtx → Event → OpCtx × Option GoErr × Nat
  | [], o, _ => (o, none, 0)
  | h :: hs, o, evt =>
    match h.run o evt with
    | (o₁, some e) => (o₁, some e, 1)
    | (o₁, none) =>
      let r := runHandlers hs o₁ evt
      (r.1, r.2.1, r.2.2 + 1)

/-- `func (h *Hub[Tx]) dispatchEvent(op *OpContext[Tx], evt Event) error`:
look up the handler list for `reflect.TypeOf(evt)` and run it. -/
def Hub.dispatchEvent (h : Hub) (o : OpCtx) (evt : Event) :
    OpCtx × Option GoErr × Nat :=
  runHandlers (h.handlers evt.ty) o evt

/-- `func (o *OpContext[T]) dispatchEvents() error`, the FIFO drain loop:
`for len(o.events) > 0 { evt := o.events[0]; o.events = o.events[1:];
if err := o.hub.dispatchEvent(o, evt); err != nil { return err } }`.

Recursion is on explicit fuel since handlers may append to the buffer
(the Go loop need not terminate); `none` means the fuel ran out while the
Go loop would still be running. On `some` the result carries, besides the
final context and error, two ghost observations: the list of events
dispatched, in dispatch order, and the list of events that entered the
buffer during the run (each step's additions are the suffix the handlers
left beyond the remaining queue), in order of appearance. -/
def dispatchEvents (hub : Hub) :
    Nat → OpCtx → Option (OpCtx × Option GoErr × List Event × List Event)
  | 0, _ => none
  | fuel + 1, o =>
    match o.events with
    | [] => some (o, none, [], [])
    | evt :: rest =>
      let o₁ := { o with events := rest }
      match hub.dispatchEvent o₁ evt with
      | (o₂, some e, _) => some (o₂, some e, [evt], o₂.events.drop rest.length)
      | (o₂, none, _) =>
        match dispatchEvents hub fuel o₂ with
        | none => none
        | some (o₃, err, tr, em) =>
          some (o₃, err, evt :: tr, o₂.events.drop rest.length ++ em)

/-- Ghost trace of externally visible effects of an invocation. -/
inductive TraceEv where
  | bodyRun : TraceEv
  | commitAttempt : TraceEv
  | rollbackAttempt : TraceEv
  | dispatched : Event → TraceEv
  | txCommit : Nat → TraceEv
  | txRollback : Nat → TraceEv
  | hookRun : Nat → TraceEv
deriving DecidableEq, Repr

/-- `func (o *OpContext[T]) invokeAfterFuncs()`: run the registered hooks
in registration order. Hooks are opaque ids here; their invocations are
recorded in the trace. -/
def invokeAfterFuncs (o : OpCtx) : List TraceEv :=
  o.after.map TraceEv.hookRun

/-- `func (o *OpContext[T]) commit() error`. `txCommit`/`txRollback` model
the transaction methods `Commit`/`Rollback` of the bound transaction value
(the result of `o.activeTx.Commit(o.Context)` etc.); calls to them are
recorded in the trace. -/
def OpCtx.commit (hub : Hub) (txCommit _txRollback : Nat → Option GoErr)
    (fuel : Nat) (o : OpCtx) : Option (OpCtx × Option GoErr × List TraceEv) :=
  if o.state ≠ stateActive then
    some (o, some GoErr.errInvalidState, [])
  else
    let o₀ := { o with state := stateDispatchEvents }
    match dispatchEvents hub fuel o₀ with
    | none => none
    | some (o₁, some err, tr, _) =>
      let o₂ := { o₁ with state := stateFailed }
      if o₂.isTransactionActive then
        -- `_ = o.activeTx.Rollback(o.Context)` - the rollback error is discarded
        some (o₂, some err, tr.map TraceEv.dispatched ++ [TraceEv.txRollback o₂.activeTx])
      else
        some (o₂, some err, tr.map TraceEv.dispatched)
    | some (o₁, none, tr, _) =>
      if o₁.isTransactionActive then
        match txCommit o₁.activeTx with
        | some txErr =>
          some ({ o₁ with state := stateFailed }, some txErr,
            tr.map TraceEv.dispatched ++ [TraceEv.txCommit o₁.activeTx])
        | none =>
          let o₂ := { o₁ with state := stateInvokeAfter }
          some ({ o₂ with state := stateSuccess }, none,
            tr.map TraceEv.dispatched ++ [TraceEv.txCommit o₁.activeTx] ++ invokeAfterFuncs o₂)
      else
        let o₂ := { o₁ with state := stateInvokeAfter }
        some ({ o₂ with state := stateSuccess }, none,
          tr.map TraceEv.dispatched ++ invokeAfterFuncs o₂)

/-- `func (o *OpContext[T]) rollback() error`. -/
def OpCtx.rollback (txRollback : Nat → Option GoErr) (o : OpCtx) :
    OpCtx × Option GoErr × List TraceEv :=
  if o.state ≠ stateActive then
    (o, some GoErr.errInvalidState, [])
  else
    let o₁ := { o with state := stateRolledback }
    if o₁.isTransactionActive then
      (o₁, txRollback o₁.activeTx, [TraceEv.txRollback o₁.activeTx])
    else
      (o₁, none, [])

/-- Outcome of running an operation body: a normal Go return `(out, err)`
(either of which may be nil), or a panic carrying a value. -/
inductive BodyResult (O : Type) where
  | ret : Option O → Option GoErr → BodyResult O
  | panics : PanicVal → BodyResult O
deriving DecidableEq, Repr

/-- `func invokeWithRecover[O any](fn func() (*O, error)) (out *O, err error)`:
on a panic the named return `out` is still nil and `err` becomes
`fmt.Errorf("%w: %w", ErrRecovered, e)` for an error panic value, or
`fmt.Errorf("%w: %v", ErrRecovered, r)` otherwise. -/
def invokeWithRecover {O : Type} (r : BodyResult O) : Option O × Option GoErr :=
  match r with
  | .ret out err => (out, err)
  | .panics (.intVal n) => (none, some (GoErr.errRecoveredInt n))
  | .panics (.errVal e) => (none, some (GoErr.errRecoveredErr e))

/-- `func Invoke[...](ctx, hub, op, input) (*O, error)`. The operation body
`op(opCtx, input)` is modelled as a state transformer on the OpCtx (its Go
effects flow through the `*OpContext` pointer) paired with its outcome.
Result: `none` if the event-drain fuel ran out, otherwise the returned
`(output, error)` pair and the ghost effect trace. -/
def Invoke {O : Type} (hub : Hub) (txCommit txRollback : Nat → Option GoErr)
    (body : OpCtx → OpCtx × BodyResult O) (fuel : Nat) :
    Option (Option O × Option GoErr × List TraceEv) :=
  let o₀ := beginOperation
  let b := body o₀
  let r := invokeWithRecover b.2
  match r.2 with
  | some e =>
    -- `opCtx.rollback()` - its error is discarded; return nil, err
    let rb := OpCtx.rollback txRollback b.1
    some (none, some e, TraceEv.bodyRun :: TraceEv.rollbackAttempt :: rb.2.2)
  | none =>
    match OpCtx.commit hub txCommit txRollback fuel b.1 with
    | none => none
    | some (_, some cerr, tr) =>
      -- `fmt.Errorf("commit operation failed (%s)", err)`
      some (none, some (GoErr.commitFailed cerr),
        TraceEv.bodyRun :: TraceEv.commitAttempt :: tr)
    | some (_, none, tr) =>
      some (r.1, none, TraceEv.bodyRun :: TraceEv.commitAttempt :: tr)

/-- `func InvokeTx[...](ctx, hub, op, input) (*O, error)`: like Invoke but
eagerly calls `opCtx.Tx()` first and passes the bound transaction into the
body; if the factory call fails the error is returned at once (no body, no
commit, no rollback). -/
def InvokeTx {O : Type} (hub : Hub) (p : Nat → Nat × Option GoErr)
    (txCommit txRollback : Nat → Option GoErr)
    (body : OpCtx → Nat → OpCtx × BodyResult O) (fuel : Nat) :
    Option (Option O × Option GoErr × List TraceEv) :=
  let o₀ := beginOperation
  let t := OpCtx.Tx p 0 o₀
  match t.2.2.2 with
  | some e => some (none, some e, [])
  | none =>
    let b := body t.1 t.2.2.1
    let r := invokeWithRecover b.2
    match r.2 with
    | some e =>
      let rb := OpCtx.rollback txRollback b.1
      some (none, some e, TraceEv.bodyRun :: TraceEv.rollbackAttempt :: rb.2.2)
    | none =>
      match OpCtx.commit hub txCommit txRollback fuel b.1 with
      | none => none
      | some (_, some cerr, tr) =>
        some (none, some (GoErr.commitFailed cerr),
          TraceEv.bodyRun :: TraceEv.commitAttempt :: tr)
      | some (_, none, tr) =>
        some (r.1, none, TraceEv.bodyRun :: TraceEv.commitAttempt :: tr)

/-!
Registration-time validation (`makeEventHandler` in the registry file).
Go types are identified by `Nat` codes; the fragment of the reflection
API used by the source (`AssignableTo`, `Implements(errorInterface)`) is
modelled as an oracle `TypeSys`, since the reflection rules themselves
live in the Go standard library, outside this repository.
-/

/-- The reflection facts `makeEventHandler` consults: `assignable a b`
models `a.AssignableTo(b)`, and `impl a` models
`a.Implements(errorInterface)`. -/
structure TypeSys where
  assignable : Nat → Nat → Bool
  impl : Nat → Bool

/-- The shape of a Go value passed as the handler argument: either not a
function at all, or a function with the given parameter and result type
lists (`val.Type().In(i)` / `val.Type().Out(i)`). -/
inductive GoVal where
  | nonFunc : GoVal
  | func : List Nat → List Nat → GoVal
deriving DecidableEq, Repr

/-- The validated binding produced on success (`genericEventHandler`):
whether the callback takes a context first parameter, and the stored
`evtParameterType` (the source stores the registered event type here). -/
structure HandlerShape where
  hasContext : Bool
  evtParameterType : Nat
deriving DecidableEq, Repr

/-- `func makeEventHandler[Tx](eventType reflect.Type, fn any)
eventHandler[Tx]`: validates the callback's shape, panicking (modelled as
`Except.error` with the panic message) on any violation. `opCtxTy` is the
type code of `*OpContext[Tx]`. Check order follows the source: the
function-kind check, then the `NumOut` switch, then the `NumIn` switch
(two-parameter case checks the context parameter first, then falls
through to the event-parameter check). -/
def makeEventHandler (ts : TypeSys) (opCtxTy eventType : Nat) (v : GoVal) :
    Except String HandlerShape :=
  match v with
  | .nonFunc => .error "event handler is not a function"
  | .func ins outs =>
    match outs with
    | [] =>
      match ins with
      | [a] =>
        if ts.assignable eventType a then .ok ⟨false, eventType⟩
        else .error "concrete event type is not assignable to event handler parameter"
      | [c, a] =>
        if ts.assignable opCtxTy c then
          if ts.assignable eventType a then .ok ⟨true, eventType⟩
          else .error "concrete event type is not assignable to event handler parameter"
        else .error "OpContext is not assignable to event handler context parameter"
      | _ => .error "event handler must declare 1..2 parameters"
    | [r] =>
      if ts.impl r then
        match ins with
        | [a] =>
          if ts.assignable eventType a then .ok ⟨false, eventType⟩
          else .error "concrete event type is not assignable to event handler parameter"
        | [c, a] =>
          if ts.assignable opCtxTy c then
            if ts.assignable eventType a then .ok ⟨true, eventType⟩
            else .error "concrete event type is not assignable to event handler parameter"
          else .error "OpContext is not assignable to event handler context parameter"
        | _ => .error "event handler must declare 1..2 parameters"
      else .error "event handler return type does not implement error"
    | _ => .error "event handler must return 0..1 values"

/-- The registration-side view of the Hub: the handler-shape registry
keyed by event type. -/
structure RegHub where
  handlers : Nat → List HandlerShape

/-- `func (h *Hub[Tx]) RegisterEventHandler(event Event, hnd any)`:
`ty := reflect.TypeOf(event); h.eventHandlers[ty] = append(..., makeEventHandler(ty, hnd))`.
A validation panic aborts registration before the registry is touched. -/
def RegHub.RegisterEventHandler (ts : TypeSys) (opCtxTy : Nat) (h : RegHub)
    (eventType : Nat) (v : GoVal) : Except String RegHub :=
  match makeEventHandler ts opCtxTy eventType v with
  | .error m => .error m
  | .ok shape =>
    .ok ⟨fun t => if t = eventType then h.handlers t ++ [shape] else h.handlers t⟩

/-- The error produced by `invokeWithRecover` when the body panics with a
given value (the recovered-error wrapping of the panic value). -/
def recoverErr (v : PanicVal) : GoErr :=
  match v with
  | .intVal n => GoErr.errRecoveredInt n
  | .errVal e => GoErr.errRecoveredErr e

/-- How many commit/rollback attempts a trace records. -/
def countAttempts (tr : List TraceEv) : Nat :=
  tr.countP fun x => x == TraceEv.commitAttempt || x == TraceEv.rollbackAttempt

/-- How many operation-body invocations a trace records. -/
def countBody (tr : List TraceEv) : Nat :=
  tr.countP fun x => x == TraceEv.bodyRun

/-- A handler whose only effect on the event buffer is to append to it.
Inside the dispatch loop a Go handler can reach the buffer only through
`OpContext.Emit`, which appends; it cannot remove or reorder queued
events. -/
def HandlerAppends (h : Handler) : Prop :=
  ∀ o e, ∃ em, ((h.run o e).1).events = o.events ++ em

/-!
Helper lemmas shared by several claim proofs.
-/

theorem runHandlers_appends (hs : List Handler) (o : OpCtx) (evt : Event)
    (hok : ∀ h ∈ hs, HandlerAppends h) :
    ∃ em, ((runHandlers hs o evt).1).events = o.events ++ em := by
  induction hs generalizing o with
  | nil => exact ⟨[], by simp [runHandlers]⟩
  | cons h hs ih =>
    obtain ⟨em₁, hem₁⟩ := hok h (by simp) o evt
    rcases hr : h.run o evt with ⟨o₁, err⟩
    cases err with
    | some e =>
      refine ⟨em₁, ?_⟩
      simp only [runHandlers, hr]
      rw [← hem₁, hr]
    | none =>
      obtain ⟨em₂, hem₂⟩ := ih o₁ (fun h' hh' => hok h' (by simp [hh']))
      refine ⟨em₁ ++ em₂, ?_⟩
      simp only [runHandlers, hr]
      rw [hem₂, ← List.append_assoc, ← hem₁, hr]

theorem runHandlers_stop (hs₁ : List Handler) (hbad : Handler)
    (hs₂ : List Handler) (o : OpCtx) (evt : Event) (err : GoErr)
    (hok : ∀ h ∈ hs₁, ∀ o' e, (h.run o' e).2 = none)
    (hbadrun : ∀ o' e, (hbad.run o' e).2 = some err) :
    (runHandlers (hs₁ ++ hbad :: hs₂) o evt).2 = (some err, hs₁.length + 1) := by
  induction hs₁ generalizing o with
  | nil =>
    simp only [List.nil_append, runHandlers]
    rcases hr : hbad.run o evt with ⟨o₁, e⟩
    have := hbadrun o evt
    rw [hr] at this
    simp at this
    subst this
    simp
  | cons h hs ih =>
    have hnone := hok h (by simp) o evt
    rcases hr : h.run o evt with ⟨o₁, e⟩
    rw [hr] at hnone
    simp at hnone
    subst hnone
    have hih := ih o₁ (fun h' hh' => hok h' (by simp [hh']))
    simp only [List.cons_append, runHandlers, hr, List.append_eq]
    rw [hih]
    simp [Nat.add_comm]

theorem dispatchEvents_conserves (hub : Hub)
    (htame : ∀ t, ∀ h ∈ hub.handlers t, HandlerAppends h) :
    ∀ (fuel : Nat) (o o' : OpCtx) (err : Option GoErr) (tr em : List Event),
      dispatchEvents hub fuel o = some (o', err, tr, em) →
      tr ++ o'.events = o.events ++ em ∧ (err = none → o'.events = []) := by
  intro fuel
  induction fuel with
  | zero => intro o o' err tr em h; simp [dispatchEvents] at h
  | succ fuel ih =>
    intro o o' err tr em h
    rcases hev : o.events with _ | ⟨evt, rest⟩
    · rw [dispatchEvents, hev] at h
      simp at h
      obtain ⟨h1, h2, h3, h4⟩ := h
      subst h1; subst h2; subst h3; subst h4
      simp [hev]
    · rw [dispatchEvents, hev] at h
      dsimp only at h
      obtain ⟨em₁, hem₁⟩ :=
        runHandlers_appends (hub.handlers evt.ty) { o with events := rest } evt
          (htame evt.ty)
      rcases hdisp : hub.dispatchEvent { o with events := rest } evt with ⟨o₂, e₂, n₂⟩
      have ho₂ : o₂.events = rest ++ em₁ := by
        have : (hub.dispatchEvent { o with events := rest } evt).1.events
            = ({ o with events := rest } : OpCtx).events ++ em₁ := hem₁
        rw [hdisp] at this
        exact this
      have hdrop : o₂.events.drop rest.length = em₁ := by
        rw [ho₂, List.drop_left]
      rw [hdisp] at h
      cases e₂ with
      | some e =>
        simp at h
        obtain ⟨h1, h2, h3, h4⟩ := h
        subst h1; subst h2; subst h3; subst h4
        constructor
        · simp [ho₂, List.drop_left]
        · simp
      | none =>
        simp at h
        rcases hrec : dispatchEvents hub fuel o₂ with _ | ⟨o₃, err₃, tr₃, em₃⟩
        · rw [hrec] at h; simp at h
        · rw [hrec] at h
          simp at h
          obtain ⟨h1, h2, h3, h4⟩ := h
          subst h1; subst h2; subst h3; subst h4
          obtain ⟨hc, hn⟩ := ih o₂ o₃ err₃ tr₃ em₃ hrec
          refine ⟨?_, hn⟩
          rw [hdrop]
          simp only [List.cons_append, List.append_assoc]
          rw [hc, ho₂]
          simp

theorem commit_success_shape (hub : Hub) (txC txR : Nat → Option GoErr)
    (fuel : Nat) (o₀ oc : OpCtx) (trc : List TraceEv)
    (hst : o₀.state = stateActive)
    (h : OpCtx.commit hub txC txR fuel o₀ = some (oc, none, trc)) :
    ∃ o₁ tr₁ em₁,
      dispatchEvents hub fuel { o₀ with state := stateDispatchEvents }
        = some (o₁, none, tr₁, em₁)
      ∧ trc = tr₁.map TraceEv.dispatched
          ++ (if o₁.isTransactionActive then [TraceEv.txCommit o₁.activeTx] else [])
          ++ o₁.after.map TraceEv.hookRun := by
  rw [OpCtx.commit] at h
  rw [if_neg (by simp [hst])] at h
  dsimp only at h
  rcases hrec : dispatchEvents hub fuel { o₀ with state := stateDispatchEvents }
    with _ | ⟨o₁, err₁, tr₁, em₁⟩
  · rw [hrec] at h; simp at h
  · rw [hrec] at h
    cases err₁ with
    | some e =>
      by_cases hact : ({ o₁ with state := stateFailed } : OpCtx).isTransactionActive
      · simp [hact] at h
      · simp [hact] at h
    | none =>
      refine ⟨o₁, tr₁, em₁, rfl, ?_⟩
      by_cases hact : o₁.isTransactionActive
      · rcases htx : txC o₁.activeTx with _ | txErr
        · simp [hact, htx, invokeAfterFuncs] at h
          rw [if_pos hact]
          simp [h.2]
        · simp [hact, htx] at h
      · simp [hact, invokeAfterFuncs] at h
        rw [if_neg hact]
        simp [h.2]

theorem rollback_trace_cases (txR : Nat → Option GoErr) (o : OpCtx) :
    (OpCtx.rollback txR o).2.2 = []
    ∨ (OpCtx.rollback txR o).2.2 = [TraceEv.txRollback o.activeTx] := by
  rw [OpCtx.rollback]
  by_cases h1 : o.state ≠ stateActive
  · rw [if_pos h1]; left; rfl
  · rw [if_neg h1]
    dsimp only
    by_cases h2 : ({ o with state := stateRolledback } : OpCtx).isTransactionActive = true
    · rw [if_pos h2]; right; rfl
    · rw [if_neg h2]; left; rfl

theorem rollback_active_trace (txR : Nat → Option GoErr) (o : OpCtx)
    (hst : o.state = stateActive) (hact : o.isTransactionActive = true) :
    (OpCtx.rollback txR o).2.2 = [TraceEv.txRollback o.activeTx] := by
  rw [OpCtx.rollback, if_neg (by simp [hst])]
  dsimp only
  rw [if_pos (by simpa [OpCtx.isTransactionActive] using hact)]

theorem Invoke_body_error {O : Type} (hub : Hub) (txC txR : Nat → Option GoErr)
    (body : OpCtx → OpCtx × BodyResult O) (fuel : Nat) (e : GoErr)
    (he : (invokeWithRecover (body beginOperation).2).2 = some e) :
    Invoke hub txC txR body fuel
      = some (none, some e, TraceEv.bodyRun :: TraceEv.rollbackAttempt ::
          (OpCtx.rollback txR (body beginOperation).1).2.2) := by
  rw [Invoke]
  dsimp only
  rw [he]

theorem Invoke_body_ok {O : Type} (hub : Hub) (txC txR : Nat → Option GoErr)
    (body : OpCtx → OpCtx × BodyResult O) (fuel : Nat)
    (he : (invokeWithRecover (body beginOperation).2).2 = none) :
    Invoke hub txC txR body fuel
      = match OpCtx.commit hub txC txR fuel (body beginOperation).1 with
        | none => none
        | some (_, some cerr, tr) =>
          some (none, some (GoErr.commitFailed cerr),
            TraceEv.bodyRun :: TraceEv.commitAttempt :: tr)
        | some (_, none, tr) =>
          some ((invokeWithRecover (body beginOperation).2).1, none,
            TraceEv.bodyRun :: TraceEv.commitAttempt :: tr) := by
  rw [Invoke]
  dsimp only
  rw [he]

theorem txIter_bound (p : Nat → Nat × Option GoErr) (n calls : Nat) (o : OpCtx)
    (h : o.isTransactionActive = true) :
    txIter p n calls o = (o, calls, List.replicate n (o.activeTx, none)) := by
  induction n with
  | zero => simp [txIter]
  | succ n ih => simp [txIter, OpCtx.Tx, h, ih, List.replicate_succ]

/-- A trace entry is an external effect, not an orchestrator marker. -/
def NoMarker (x : TraceEv) : Prop :=
  x ≠ TraceEv.bodyRun ∧ x ≠ TraceEv.commitAttempt ∧ x ≠ TraceEv.rollbackAttempt

theorem noMarker_dispatched_map (l : List Event) :
    ∀ x ∈ l.map TraceEv.dispatched, NoMarker x := by
  intro x hx
  rcases List.mem_map.mp hx with ⟨ev, _, rfl⟩
  exact ⟨by simp, by simp, by simp⟩

theorem noMarker_hookRun_map (l : List Nat) :
    ∀ x ∈ l.map TraceEv.hookRun, NoMarker x := by
  intro x hx
  rcases List.mem_map.mp hx with ⟨f, _, rfl⟩
  exact ⟨by simp, by simp, by simp⟩

theorem noMarker_append (A B : List TraceEv)
    (hA : ∀ x ∈ A, NoMarker x) (hB : ∀ x ∈ B, NoMarker x) :
    ∀ x ∈ A ++ B, NoMarker x := by
  intro x hx
  rcases List.mem_append.mp hx with hx | hx
  · exact hA x hx
  · exact hB x hx

theorem commit_trace_no_markers (hub : Hub) (txC txR : Nat → Option GoErr)
    (fuel : Nat) (o o' : OpCtx) (err : Option GoErr) (tr : List TraceEv)
    (h : OpCtx.commit hub txC txR fuel o = some (o', err, tr)) :
    ∀ x ∈ tr, NoMarker x := by
  rw [OpCtx.commit] at h
  by_cases hst : o.state ≠ stateActive
  · rw [if_pos hst] at h
    simp at h
    obtain ⟨h1, h2, h3⟩ := h
    subst h3
    simp
  · rw [if_neg hst] at h
    dsimp only at h
    rcases hrec : dispatchEvents hub fuel { o with state := stateDispatchEvents }
      with _ | ⟨o₁, err₁, tr₁, em₁⟩
    · rw [hrec] at h; simp at h
    · rw [hrec] at h
      cases err₁ with
      | some e =>
        by_cases hact : ({ o₁ with state := stateFailed } : OpCtx).isTransactionActive = true
        · simp only [hact, if_true] at h
          simp at h
          obtain ⟨h1, h2, h3⟩ := h
          subst h3
          refine noMarker_append _ _ (noMarker_dispatched_map tr₁) ?_
          intro x hx
          simp at hx
          subst hx
          exact ⟨by simp, by simp, by simp⟩
        · simp only [hact, if_false] at h
          simp at h
          obtain ⟨h1, h2, h3⟩ := h
          subst h3
          exact noMarker_dispatched_map tr₁
      | none =>
        by_cases hact : o₁.isTransactionActive = true
        · simp only [hact, if_true] at h
          rcases htx : txC o₁.activeTx with _ | txErr
          · rw [htx] at h
            simp at h
            obtain ⟨h1, h2, h3⟩ := h
            subst h3
            refine noMarker_append _ _ (noMarker_dispatched_map tr₁) ?_
            intro x hx
            rcases List.mem_cons.mp hx with rfl | hx
            · exact ⟨by simp, by simp, by simp⟩
            · exact noMarker_hookRun_map _ x hx
          · rw [htx] at h
            simp at h
            obtain ⟨h1, h2, h3⟩ := h
            subst h3
            refine noMarker_append _ _ (noMarker_dispatched_map tr₁) ?_
            intro x hx
            simp at hx
            subst hx
            exact ⟨by simp, by simp, by simp⟩
        · simp only [hact, if_false] at h
          simp at h
          obtain ⟨h1, h2, h3⟩ := h
          subst h3
          exact noMarker_append _ _ (noMarker_dispatched_map tr₁) (noMarker_hookRun_map _)

theorem counts_of_no_markers (tr : List TraceEv)
    (h : ∀ x ∈ tr, NoMarker x) :
    countAttempts tr = 0 ∧ countBody tr = 0 := by
  constructor
  · refine List.countP_eq_zero.mpr ?_
    intro a ha
    obtain ⟨h1, h2, h3⟩ := h a ha
    simp [h2, h3]
  · refine List.countP_eq_zero.mpr ?_
    intro a ha
    obtain ⟨h1, h2, h3⟩ := h a ha
    simp [h1]

theorem rollback_trace_no_markers (txR : Nat → Option GoErr) (o : OpCtx) :
    ∀ x ∈ (OpCtx.rollback txR o).2.2, NoMarker x := by
  rcases rollback_trace_cases txR o with h | h <;> rw [h] <;> intro x hx <;> simp at hx
  subst hx
  exact ⟨by simp, by simp, by simp⟩

theorem counts_marker_cons (y : TraceEv) (l : List TraceEv)
    (hy : y = TraceEv.commitAttempt ∨ y = TraceEv.rollbackAttempt)
    (hl : countAttempts l = 0 ∧ countBody l = 0) :
    countBody (TraceEv.bodyRun :: y :: l) = 1
      ∧ countAttempts (TraceEv.bodyRun :: y :: l) = 1 := by
  have hb := hl.2
  have ha := hl.1
  rw [countBody] at hb ⊢
  rw [countAttempts] at ha ⊢
  rcases hy with rfl | rfl <;> simp [List.countP_cons, hb, ha]

theorem Invoke_counts {O : Type} (hub : Hub) (txC txR : Nat → Option GoErr)
    (body : OpCtx → OpCtx × BodyResult O) (fuel : Nat) :
    ∀ out err tr, Invoke hub txC txR body fuel = some (out, err, tr) →
      countBody tr = 1 ∧ countAttempts tr = 1 ∧ (out ≠ none → err = none) := by
  intro out err tr h
  rcases hr : (invokeWithRecover (body beginOperation).2).2 with _ | e
  · rw [Invoke_body_ok hub txC txR body fuel hr] at h
    rcases hc : OpCtx.commit hub txC txR fuel (body beginOperation).1
      with _ | ⟨oc, errc, trc⟩
    · rw [hc] at h; simp at h
    · rw [hc] at h
      have hcounts := counts_of_no_markers trc
        (commit_trace_no_markers hub txC txR fuel _ oc errc trc hc)
      cases errc with
      | some cerr =>
        simp at h
        obtain ⟨h1, h2, h3⟩ := h
        subst h1; subst h2; subst h3
        have := counts_marker_cons TraceEv.commitAttempt trc (Or.inl rfl) hcounts
        exact ⟨this.1, this.2, by simp⟩
      | none =>
        simp at h
        obtain ⟨h1, h2, h3⟩ := h
        subst h1; subst h2; subst h3
        have := counts_marker_cons TraceEv.commitAttempt trc (Or.inl rfl) hcounts
        exact ⟨this.1, this.2, fun _ => rfl⟩
  · rw [Invoke_body_error hub txC txR body fuel e hr] at h
    simp at h
    obtain ⟨h1, h2, h3⟩ := h
    subst h1; subst h2; subst h3
    have hrb := counts_of_no_markers _
      (rollback_trace_no_markers txR (body beginOperation).1)
    have := counts_marker_cons TraceEv.rollbackAttempt _ (Or.inr rfl) hrb
    exact ⟨this.1, this.2, by simp⟩

theorem InvokeTx_fac_error {O : Type} (hub : Hub) (p : Nat → Nat × Option GoErr)
    (txC txR : Nat → Option GoErr) (tbody : OpCtx → Nat → OpCtx × BodyResult O)
    (fuel : Nat) (e : GoErr) (he : (p 0).2 = some e) :
    InvokeTx hub p txC txR tbody fuel = some (none, some e, []) := by
  have hTx : OpCtx.Tx p 0 beginOperation = (beginOperation, 1, 0, some e) := by
    have hP : p 0 = ((p 0).1, some e) := by rw [← he]
    rw [OpCtx.Tx, if_neg (by decide), hP]
  rw [InvokeTx]
  dsimp only
  rw [hTx]

theorem InvokeTx_fac_ok {O : Type} (hub : Hub) (p : Nat → Nat × Option GoErr)
    (txC txR : Nat → Option GoErr) (tbody : OpCtx → Nat → OpCtx × BodyResult O)
    (fuel : Nat) (he : (p 0).2 = none) :
    InvokeTx hub p txC txR tbody fuel
      = Invoke hub txC txR
          (fun _ => tbody { beginOperation with activeTx := (p 0).1 } (p 0).1)
          fuel := by
  have hTx : OpCtx.Tx p 0 beginOperation
      = ({ beginOperation with activeTx := (p 0).1 }, 1, (p 0).1, none) := by
    have hP : p 0 = ((p 0).1, none) := by rw [← he]
    rw [OpCtx.Tx, if_neg (by decide), hP]
  rw [InvokeTx, Invoke]
  dsimp only
  rw [hTx]

theorem commitFailed_ne (e : GoErr) : GoErr.commitFailed e ≠ e := by
  induction e <;> simp_all

theorem makeEventHandler_ok_shape (ts : TypeSys) (opCtxTy eventType : Nat)
    (ins outs : List Nat) (shape : HandlerShape)
    (h : makeEventHandler ts opCtxTy eventType (GoVal.func ins outs) = Except.ok shape) :
    (outs = [] ∨ ∃ r, outs = [r] ∧ ts.impl r = true)
    ∧ ((∃ a, ins = [a] ∧ ts.assignable eventType a = true)
       ∨ ∃ c a, ins = [c, a] ∧ ts.assignable opCtxTy c = true
           ∧ ts.assignable eventType a = true) := by
  rcases outs with _ | ⟨r, outs'⟩
  · refine ⟨Or.inl rfl, ?_⟩
    rcases ins with _ | ⟨a, ins'⟩
    · simp [makeEventHandler] at h
    · rcases ins' with _ | ⟨b, ins''⟩
      · by_cases ha : ts.assignable eventType a = true
        · exact Or.inl ⟨a, rfl, ha⟩
        · simp [makeEventHandler, ha] at h
      · rcases ins'' with _ | ⟨c, ins'''⟩
        · by_cases hc : ts.assignable opCtxTy a = true
          · by_cases hb : ts.assignable eventType b = true
            · exact Or.inr ⟨a, b, rfl, hc, hb⟩
            · simp [makeEventHandler, hc, hb] at h
          · simp [makeEventHandler, hc] at h
        · simp [makeEventHandler] at h
  · rcases outs' with _ | ⟨r2, outs''⟩
    · by_cases hr : ts.impl r = true
      · refine ⟨Or.inr ⟨r, rfl, hr⟩, ?_⟩
        rcases ins with _ | ⟨a, ins'⟩
        · simp [makeEventHandler, hr] at h
        · rcases ins' with _ | ⟨b, ins''⟩
          · by_cases ha : ts.assignable eventType a = true
            · exact Or.inl ⟨a, rfl, ha⟩
            · simp [makeEventHandler, hr, ha] at h
          · rcases ins'' with _ | ⟨c, ins'''⟩
            · by_cases hc : ts.assignable opCtxTy a = true
              · by_cases hb : ts.assignable eventType b = true
                · exact Or.inr ⟨a, b, rfl, hc, hb⟩
                · simp [makeEventHandler, hr, hc, hb] at h
              · simp [makeEventHandler, hr, hc] at h
            · simp [makeEventHandler, hr] at h
      · simp [makeEventHandler, hr] at h
    · simp [makeEventHandler] at h

/-!
Claim theorems.
-/

/-- C1: the spec claims `Emit` succeeds whenever the context is `Active` and
is rejected with the invalid-state error once dispatch has begun or the
context is terminal. The code's guard is inverted
(`if o.state <= stateDispatchEvents { return ErrInvalidState }` rejects
`Active` (0) and `DispatchingEvents` (1) and accepts every later state):
on a fresh Active context `Emit` returns the invalid-state error and
buffers nothing, while in the terminal `Succeeded` state it succeeds and
appends — the exact opposite of the claim, and of the function's own doc
comment and the README usage (`ctx.Emit(...)` from inside an operation
body). Evaluation of the embedded code at the failing inputs: -/
theorem C1_emit_guard_inverted :
    beginOperation.Emit ⟨1, 2⟩ = (beginOperation, some GoErr.errInvalidState)
    ∧ (({ beginOperation with state := stateDispatchEvents } : OpCtx).Emit ⟨1, 2⟩).2
        = some GoErr.errInvalidState
    ∧ (({ beginOperation with state := stateSuccess } : OpCtx).Emit ⟨1, 2⟩).2 = none
    ∧ (({ beginOperation with state := stateSuccess } : OpCtx).Emit ⟨1, 2⟩).1.events
        = [⟨1, 2⟩] := by
  decide

/-- C10: whenever `Emit` or `AfterFunc` returns the invalid-state error, the
OpContext is left completely unchanged (no event buffered, no hook
registered, state untouched): rejection is atomic. -/
theorem C10_invalid_state_rejection_atomic (o : OpCtx) (evt : Event) (fn : Nat) :
    ((o.Emit evt).2 = some GoErr.errInvalidState → (o.Emit evt).1 = o)
    ∧ ((o.AfterFunc fn).2 = some GoErr.errInvalidState → (o.AfterFunc fn).1 = o) := by
  constructor
  · intro h
    by_cases hc : o.state ≤ stateDispatchEvents
    · simp [OpCtx.Emit, hc]
    · simp [OpCtx.Emit, hc] at h
  · intro h
    by_cases hc : o.state ≠ stateActive ∧ o.state ≠ stateDispatchEvents
    · simp [OpCtx.AfterFunc, hc]
    · simp [OpCtx.AfterFunc, hc] at h

theorem C10_witness :
    (beginOperation.Emit ⟨1, 2⟩).1 = beginOperation
    ∧ (({ beginOperation with state := stateSuccess } : OpCtx).AfterFunc 3).1
        = { beginOperation with state := stateSuccess } :=
  ⟨(C10_invalid_state_rejection_atomic beginOperation ⟨1, 2⟩ 3).1 (by decide),
   (C10_invalid_state_rejection_atomic { beginOperation with state := stateSuccess }
      ⟨1, 2⟩ 3).2 (by decide)⟩

/-- C7: on an OpContext whose factory, whenever invoked, returns a
transaction distinct from the zero-value sentinel together with a nil
error (the contract of a `TransactionProvider`), calling `Tx()` one or
more times invokes the factory exactly once (the ghost call counter ends
at 1) and every call returns the same transaction instance. -/
theorem C7_tx_lazy_bind_idempotent (p : Nat → Nat × Option GoErr) (n : Nat)
    (hp : ∀ i, (p i).2 = none ∧ (p i).1 ≠ 0) (hn : 1 ≤ n) :
    txIter p n 0 beginOperation
      = ({ beginOperation with activeTx := (p 0).1 }, 1,
         List.replicate n ((p 0).1, none)) := by
  rcases n with _ | m
  · omega
  · have hP : p 0 = ((p 0).1, none) := by rw [← (hp 0).1]
    have hTx : OpCtx.Tx p 0 beginOperation
        = ({ beginOperation with activeTx := (p 0).1 }, 1, (p 0).1, none) := by
      rw [OpCtx.Tx, if_neg (by decide), hP]
    have hact : ({ beginOperation with activeTx := (p 0).1 } : OpCtx).isTransactionActive
        = true := by
      simp [OpCtx.isTransactionActive]
      exact (hp 0).2
    simp only [txIter, hTx]
    rw [txIter_bound p m 1 _ hact]
    simp [List.replicate_succ]

theorem C7_witness :
    txIter (fun _ => (5, none)) 3 0 beginOperation
      = ({ beginOperation with activeTx := 5 }, 1, List.replicate 3 (5, none)) :=
  C7_tx_lazy_bind_idempotent (fun _ => (5, none)) 3 (fun _ => ⟨rfl, by simp⟩)
    (by decide)

theorem txIter_zero_factory (p : Nat → Nat × Option GoErr)
    (hp : ∀ i, p i = (0, none)) :
    ∀ n calls, txIter p n calls beginOperation
      = (beginOperation, calls + n, List.replicate n (0, none)) := by
  intro n
  induction n with
  | zero => intro calls; simp [txIter]
  | succ n ih =>
    intro calls
    have hTx : OpCtx.Tx p calls beginOperation = (beginOperation, calls + 1, 0, none) := by
      rw [OpCtx.Tx, if_neg (by decide), hp calls]
      rfl
    simp only [txIter, hTx]
    rw [ih (calls + 1)]
    simp [List.replicate_succ]
    omega

/-- C9: if the transaction factory returns the zero value of the
transaction type with a nil error, the OpContext treats the transaction
as unbound: `isTransactionActive` stays false, each later `Tx()` call
invokes the factory again (the ghost counter advances by one per call),
and `commit()`/`rollback()` call neither `Commit` nor `Rollback` (the
commit/rollback traces contain no transaction operation). -/
theorem C9_zero_value_factory_unbound (p : Nat → Nat × Option GoErr)
    (hp : ∀ i, p i = (0, none)) (n : Nat) (hub : Hub)
    (txC txR : Nat → Option GoErr) (fuel : Nat) (hooks : List Nat) :
    txIter p n 0 beginOperation = (beginOperation, n, List.replicate n (0, none))
    ∧ beginOperation.isTransactionActive = false
    ∧ OpCtx.commit hub txC txR (fuel + 1) { beginOperation with after := hooks }
        = some ({ beginOperation with state := stateSuccess, after := hooks },
            none, hooks.map TraceEv.hookRun)
    ∧ (∀ t, TraceEv.txCommit t ∉ hooks.map TraceEv.hookRun
          ∧ TraceEv.txRollback t ∉ hooks.map TraceEv.hookRun)
    ∧ OpCtx.rollback txR { beginOperation with after := hooks }
        = ({ beginOperation with state := stateRolledback, after := hooks }, none, []) := by
  refine ⟨?_, by decide, ?_, ?_, ?_⟩
  · have := txIter_zero_factory p hp n 0
    simpa using this
  · rfl
  · intro t
    constructor <;> simp [List.mem_map]
  · rfl

theorem C9_witness :
    txIter (fun _ => (0, none)) 2 0 beginOperation
      = (beginOperation, 2, List.replicate 2 (0, none))
    ∧ beginOperation.isTransactionActive = false
    ∧ OpCtx.commit (Hub.mk fun _ => []) (fun _ => none) (fun _ => none) 1
        { beginOperation with after := [4] }
        = some ({ beginOperation with state := stateSuccess, after := [4] },
            none, [TraceEv.hookRun 4])
    ∧ (∀ t, TraceEv.txCommit t ∉ [TraceEv.hookRun 4]
          ∧ TraceEv.txRollback t ∉ [TraceEv.hookRun 4])
    ∧ OpCtx.rollback (fun _ => none) { beginOperation with after := [4] }
        = ({ beginOperation with state := stateRolledback, after := [4] }, none, []) :=
  C9_zero_value_factory_unbound (fun _ => (0, none)) (fun _ => rfl) 2
    (Hub.mk fun _ => []) (fun _ => none) (fun _ => none) 0 [4]

/-- C5: if the operation body returns an error or terminates abnormally
(panics), Invoke dispatches no buffered event, runs no after-hook, never
calls `Commit`, and calls `Rollback` on the bound transaction if one was
started. Hypothesis `hst` says the body left the context in the `Active`
state, which holds for every body that touches the context only through
the OpContext API (`Tx`/`Emit`/`AfterFunc` never change the state field). -/
theorem C5_body_failure_no_dispatch {O : Type} (hub : Hub)
    (txC txR : Nat → Option GoErr) (body : OpCtx → OpCtx × BodyResult O)
    (fuel : Nat)
    (hst : (body beginOperation).1.state = stateActive)
    (hfail : (∃ out e, (body beginOperation).2 = BodyResult.ret out (some e))
           ∨ (∃ v, (body beginOperation).2 = BodyResult.panics v)) :
    ∃ e tr, Invoke hub txC txR body fuel = some (none, some e, tr)
      ∧ (∀ ev, TraceEv.dispatched ev ∉ tr)
      ∧ (∀ fn, TraceEv.hookRun fn ∉ tr)
      ∧ (∀ t, TraceEv.txCommit t ∉ tr)
      ∧ ((body beginOperation).1.isTransactionActive = true →
          TraceEv.txRollback (body beginOperation).1.activeTx ∈ tr) := by
  obtain ⟨e, he⟩ : ∃ e, (invokeWithRecover (body beginOperation).2).2 = some e := by
    rcases hfail with ⟨out, e, h⟩ | ⟨v, h⟩
    · exact ⟨e, by rw [h]; rfl⟩
    · exact ⟨recoverErr v, by rw [h]; cases v <;> rfl⟩
  refine ⟨e, _, Invoke_body_error hub txC txR body fuel e he, ?_, ?_, ?_, ?_⟩
  · intro ev
    rcases rollback_trace_cases txR (body beginOperation).1 with h | h <;> simp [h]
  · intro fn
    rcases rollback_trace_cases txR (body beginOperation).1 with h | h <;> simp [h]
  · intro t
    rcases rollback_trace_cases txR (body beginOperation).1 with h | h <;> simp [h]
  · intro hact
    rw [rollback_active_trace txR (body beginOperation).1 hst hact]
    simp

theorem C5_witness :
    ∃ e tr,
      Invoke (Hub.mk fun _ => []) (fun _ => none) (fun _ => none)
          (fun (o : OpCtx) => ({ o with activeTx := 9, events := [⟨1, 1⟩] },
            BodyResult.ret (none : Option Nat) (some (GoErr.user 3)))) 1
        = some (none, some e, tr)
      ∧ (∀ ev, TraceEv.dispatched ev ∉ tr)
      ∧ (∀ fn, TraceEv.hookRun fn ∉ tr)
      ∧ (∀ t, TraceEv.txCommit t ∉ tr)
      ∧ (((fun (o : OpCtx) => ({ o with activeTx := 9, events := [⟨1, 1⟩] },
            BodyResult.ret (none : Option Nat) (some (GoErr.user 3)))) beginOperation).1.isTransactionActive = true →
          TraceEv.txRollback (((fun (o : OpCtx) => ({ o with activeTx := 9, events := [⟨1, 1⟩] },
            BodyResult.ret (none : Option Nat) (some (GoErr.user 3)))) beginOperation)).1.activeTx ∈ tr) :=
  C5_body_failure_no_dispatch (Hub.mk fun _ => []) (fun _ => none) (fun _ => none)
    (fun (o : OpCtx) => ({ o with activeTx := 9, events := [⟨1, 1⟩] },
      BodyResult.ret (none : Option Nat) (some (GoErr.user 3)))) 1
    rfl (Or.inl ⟨none, GoErr.user 3, rfl⟩)

/-- C6: a panic in the operation body is intercepted and converted into a
recovered error wrapping the panic value, distinguishable (by identity)
from ordinary returned errors, and the invocation then follows the
ordinary failure path: rollback is attempted, and a started transaction
is rolled back. Hypothesis `hst` as in C5. -/
theorem C6_panic_recovered {O : Type} (hub : Hub) (txC txR : Nat → Option GoErr)
    (body : OpCtx → OpCtx × BodyResult O) (fuel : Nat) (v : PanicVal)
    (hb : (body beginOperation).2 = BodyResult.panics v)
    (hst : (body beginOperation).1.state = stateActive) :
    Invoke hub txC txR body fuel
      = some (none, some (recoverErr v),
          TraceEv.bodyRun :: TraceEv.rollbackAttempt ::
            (OpCtx.rollback txR (body beginOperation).1).2.2)
    ∧ (∀ m, recoverErr v ≠ GoErr.user m)
    ∧ recoverErr v ≠ GoErr.errInvalidState
    ∧ ((body beginOperation).1.isTransactionActive = true →
        (OpCtx.rollback txR (body beginOperation).1).2.2
          = [TraceEv.txRollback (body beginOperation).1.activeTx]) := by
  have he : (invokeWithRecover (body beginOperation).2).2 = some (recoverErr v) := by
    rw [hb]; cases v <;> rfl
  refine ⟨Invoke_body_error hub txC txR body fuel (recoverErr v) he, ?_, ?_, ?_⟩
  · intro m; cases v <;> simp [recoverErr]
  · cases v <;> simp [recoverErr]
  · intro hact
    exact rollback_active_trace txR (body beginOperation).1 hst hact

/-- C8: registering an event-handler callback with an invalid shape — wrong
parameter arity (not 1..2), wrong result arity (more than one result), a
single result type that does not implement `error`, or a declared
event-parameter type to which the registered event type is not assignable
(in the two-parameter case, with the context parameter itself valid) —
fails fast inside `makeEventHandler`, so `RegisterEventHandler` aborts
(the Go code panics) and the registry is never extended: the failure
happens at registration time, before any dispatch is possible. -/
theorem C8_registration_fails_fast (ts : TypeSys) (opCtxTy eventType : Nat)
    (ins outs : List Nat) (reg : RegHub)
    (hbad : ins.length = 0 ∨ 3 ≤ ins.length ∨ 2 ≤ outs.length
      ∨ (∃ r, outs = [r] ∧ ts.impl r = false)
      ∨ (∃ a, ins = [a] ∧ ts.assignable eventType a = false)
      ∨ (∃ c a, ins = [c, a] ∧ ts.assignable opCtxTy c = true
          ∧ ts.assignable eventType a = false)) :
    (∃ m, makeEventHandler ts opCtxTy eventType (GoVal.func ins outs) = Except.error m)
    ∧ ∃ m, RegHub.RegisterEventHandler ts opCtxTy reg eventType (GoVal.func ins outs)
        = Except.error m := by
  have hmk : ∃ m, makeEventHandler ts opCtxTy eventType (GoVal.func ins outs)
      = Except.error m := by
    rcases hres : makeEventHandler ts opCtxTy eventType (GoVal.func ins outs)
      with m | shape
    · exact ⟨m, rfl⟩
    · exfalso
      obtain ⟨hout, hin⟩ :=
        makeEventHandler_ok_shape ts opCtxTy eventType ins outs shape hres
      rcases hbad with h | h | h | ⟨r, hr, hfalse⟩ | ⟨a, ha, hfalse⟩
        | ⟨c, a, hca, hctx, hfalse⟩
      · rcases hin with ⟨a, rfl, _⟩ | ⟨c, a, rfl, _, _⟩ <;> simp at h
      · rcases hin with ⟨a, rfl, _⟩ | ⟨c, a, rfl, _, _⟩ <;> simp at h
      · rcases hout with rfl | ⟨r, rfl, _⟩ <;> simp at h
      · subst hr
        rcases hout with h' | ⟨r', hr', himpl⟩
        · exact absurd h' (by simp)
        · obtain ⟨heq, _⟩ := List.cons.inj hr'
          subst heq
          rw [hfalse] at himpl
          cases himpl
      · subst ha
        rcases hin with ⟨a', ha', htrue⟩ | ⟨c', a', ha', _, _⟩
        · obtain ⟨heq, _⟩ := List.cons.inj ha'
          subst heq
          rw [hfalse] at htrue
          cases htrue
        · simp at ha'
      · subst hca
        rcases hin with ⟨a', ha', _⟩ | ⟨c', a', ha', hctx', htrue⟩
        · simp at ha'
        · obtain ⟨heqc, hrest⟩ := List.cons.inj ha'
          obtain ⟨heqa, _⟩ := List.cons.inj hrest
          subst heqa
          rw [hfalse] at htrue
          cases htrue
  obtain ⟨m, hm⟩ := hmk
  refine ⟨⟨m, hm⟩, m, ?_⟩
  rw [RegHub.RegisterEventHandler, hm]

theorem C8_witness :
    (∃ m, makeEventHandler (TypeSys.mk (fun a b => a == b) (fun r => r == 50))
        10 2 (GoVal.func [3] []) = Except.error m)
    ∧ ∃ m, RegHub.RegisterEventHandler
        (TypeSys.mk (fun a b => a == b) (fun r => r == 50)) 10
        (RegHub.mk fun _ => []) 2 (GoVal.func [3] []) = Except.error m :=
  C8_registration_fails_fast (TypeSys.mk (fun a b => a == b) (fun r => r == 50))
    10 2 [3] [] (RegHub.mk fun _ => [])
    (Or.inr (Or.inr (Or.inr (Or.inr (Or.inl ⟨3, rfl, by decide⟩)))))

/-- C2 counterexample: a handler of the single dispatched event fails with
`user 5`; dispatch aborts and the transaction (none here) would be rolled
back, but `Invoke` returns `commitFailed (user 5)` — the wrapped
commit-phase error produced by
`fmt.Errorf("commit operation failed (%s), err)` — not the handler's
exact error value. -/
theorem C2_counterexample :
    Invoke (Hub.mk fun t => if t = 0
          then [Handler.mk fun o _ => (o, some (GoErr.user 5))] else [])
        (fun _ => none) (fun _ => none)
        (fun (o : OpCtx) => ({ o with events := [⟨0, 0⟩] },
          BodyResult.ret (some (1 : Nat)) none)) 2
      = some (none, some (GoErr.commitFailed (GoErr.user 5)),
          [TraceEv.bodyRun, TraceEv.commitAttempt, TraceEv.dispatched ⟨0, 0⟩])
    ∧ GoErr.commitFailed (GoErr.user 5) ≠ GoErr.user 5 :=
  ⟨rfl, by decide⟩

/-- C2 (amended): if a registered handler of a dispatched event fails,
dispatch stops at that handler (exactly the preceding handlers of that
event plus the failing one are invoked; later handlers and all further
queued events are not dispatched), the bound transaction (if any) is
rolled back, and `commit()` returns that handler's exact error — but
`Invoke` does not return it verbatim: it wraps it in the commit-failure
error (`commit operation failed (...)`). Hypotheses: the handlers before
the failing one succeed, the failing one always returns `err`, and the
operation body ended in the Active state with the failing event queued
first. -/
theorem C2_handler_failure_aborts {O : Type} (hub : Hub)
    (txC txR : Nat → Option GoErr) (t : Nat) (hs₁ : List Handler)
    (hbad : Handler) (hs₂ : List Handler) (err : GoErr) (evt : Event)
    (more : List Event) (body : OpCtx → OpCtx × BodyResult O) (out : Option O)
    (fuel : Nat)
    (hreg : hub.handlers t = hs₁ ++ hbad :: hs₂)
    (hok : ∀ h ∈ hs₁, ∀ o e, (h.run o e).2 = none)
    (hbadrun : ∀ o e, (hbad.run o e).2 = some err)
    (hty : evt.ty = t)
    (hst : (body beginOperation).1.state = stateActive)
    (hev : (body beginOperation).1.events = evt :: more)
    (hres : (body beginOperation).2 = BodyResult.ret out none) :
    (∀ o', (runHandlers (hub.handlers t) o' evt).2 = (some err, hs₁.length + 1))
    ∧ (∃ oF, OpCtx.commit hub txC txR (fuel + 1) (body beginOperation).1
        = some (oF, some err,
            TraceEv.dispatched evt ::
              (if oF.isTransactionActive then [TraceEv.txRollback oF.activeTx] else []))
        ∧ oF.state = stateFailed
        ∧ Invoke hub txC txR body (fuel + 1)
            = some (none, some (GoErr.commitFailed err),
                TraceEv.bodyRun :: TraceEv.commitAttempt :: TraceEv.dispatched evt ::
                  (if oF.isTransactionActive then [TraceEv.txRollback oF.activeTx] else [])))
    ∧ GoErr.commitFailed err ≠ err := by
  have hstop : ∀ o', (runHandlers (hub.handlers t) o' evt).2
      = (some err, hs₁.length + 1) := by
    intro o'
    rw [hreg]
    exact runHandlers_stop hs₁ hbad hs₂ o' evt err hok hbadrun
  refine ⟨hstop, ?_, commitFailed_ne err⟩
  rcases hD : hub.dispatchEvent
      { (body beginOperation).1 with state := stateDispatchEvents, events := more } evt
    with ⟨oD, eD, nD⟩
  have h2 : eD = some err := by
    have := hstop { (body beginOperation).1 with
      state := stateDispatchEvents, events := more }
    rw [Hub.dispatchEvent, hty] at hD
    rw [hD] at this
    exact congrArg Prod.fst this
  subst h2
  have hde : dispatchEvents hub (fuel + 1)
      { (body beginOperation).1 with state := stateDispatchEvents }
      = some (oD, some err, [evt], oD.events.drop more.length) := by
    rw [dispatchEvents]
    rw [show ({ (body beginOperation).1 with state := stateDispatchEvents } : OpCtx).events
      = evt :: more from hev]
    dsimp only
    rw [show hub.dispatchEvent
        { (body beginOperation).1 with state := stateDispatchEvents, events := more } evt
      = (oD, some err, nD) from hD]
  refine ⟨{ oD with state := stateFailed }, ?_, rfl, ?_⟩
  · rw [OpCtx.commit, if_neg (by simp [hst])]
    dsimp only
    rw [hde]
    dsimp only
    by_cases hact : ({ oD with state := stateFailed } : OpCtx).isTransactionActive = true
    · rw [if_pos hact, if_pos hact]
      rfl
    · rw [if_neg hact, if_neg hact]
      rfl
  · have hok2 : (invokeWithRecover (body beginOperation).2).2 = none := by
      rw [hres]
      rfl
    rw [Invoke_body_ok hub txC txR body (fuel + 1) hok2]
    rw [OpCtx.commit, if_neg (by simp [hst])]
    dsimp only
    rw [hde]
    dsimp only
    by_cases hact : ({ oD with state := stateFailed } : OpCtx).isTransactionActive = true
    · rw [if_pos hact, if_pos hact]
      rfl
    · rw [if_neg hact, if_neg hact]
      rfl

theorem C2_witness :
    (∀ o', (runHandlers ((Hub.mk fun t => if t = 0
          then [Handler.mk fun o _ => (o, some (GoErr.user 5))] else []).handlers 0)
        o' ⟨0, 0⟩).2 = (some (GoErr.user 5), 0 + 1))
    ∧ (∃ oF, OpCtx.commit (Hub.mk fun t => if t = 0
          then [Handler.mk fun o _ => (o, some (GoErr.user 5))] else [])
          (fun _ => none) (fun _ => none) 2
          ((fun (o : OpCtx) => ({ o with activeTx := 7, events := [⟨0, 0⟩] },
            BodyResult.ret (some (1 : Nat)) none)) beginOperation).1
        = some (oF, some (GoErr.user 5),
            TraceEv.dispatched ⟨0, 0⟩ ::
              (if oF.isTransactionActive then [TraceEv.txRollback oF.activeTx] else []))
        ∧ oF.state = stateFailed
        ∧ Invoke (Hub.mk fun t => if t = 0
              then [Handler.mk fun o _ => (o, some (GoErr.user 5))] else [])
            (fun _ => none) (fun _ => none)
            (fun (o : OpCtx) => ({ o with activeTx := 7, events := [⟨0, 0⟩] },
              BodyResult.ret (some (1 : Nat)) none)) 2
            = some (none, some (GoErr.commitFailed (GoErr.user 5)),
                TraceEv.bodyRun :: TraceEv.commitAttempt :: TraceEv.dispatched ⟨0, 0⟩ ::
                  (if oF.isTransactionActive then [TraceEv.txRollback oF.activeTx] else [])))
    ∧ GoErr.commitFailed (GoErr.user 5) ≠ GoErr.user 5 :=
  C2_handler_failure_aborts
    (Hub.mk fun t => if t = 0
      then [Handler.mk fun o _ => (o, some (GoErr.user 5))] else [])
    (fun _ => none) (fun _ => none) 0 [] (Handler.mk fun o _ => (o, some (GoErr.user 5)))
    [] (GoErr.user 5) ⟨0, 0⟩ []
    (fun (o : OpCtx) => ({ o with activeTx := 7, events := [⟨0, 0⟩] },
      BodyResult.ret (some (1 : Nat)) none))
    (some 1) 1 rfl (by simp) (fun _ _ => rfl) rfl rfl rfl rfl

/-- C4: during event dispatch the buffer is drained strictly FIFO: the
dispatch trace is exactly the events buffered at entry (in order) followed
by every event appended to the buffer during the run (in order of
appearance); the loop terminates exactly when the buffer is empty (on a
successful run the final buffer is empty, so no buffered event is lost or
skipped); and inside `commit()` the whole drain precedes the transaction
commit and every after-hook, so events appended during dispatch are
dispatched before after-hooks begin. Hypothesis `htame`: handlers mutate
the event buffer only by appending — the only write path a handler has,
`Emit`, appends. -/
theorem C4_fifo_drain (hub : Hub) (txC txR : Nat → Option GoErr)
    (htame : ∀ t, ∀ h ∈ hub.handlers t, HandlerAppends h) :
    (∀ fuel o o' err tr em, dispatchEvents hub fuel o = some (o', err, tr, em) →
        tr ++ o'.events = o.events ++ em
        ∧ (err = none → o'.events = [] ∧ tr = o.events ++ em))
    ∧ (∀ fuel o₀ oc trc, o₀.state = stateActive →
        OpCtx.commit hub txC txR fuel o₀ = some (oc, none, trc) →
        ∃ o₁ tr₁ em₁,
          dispatchEvents hub fuel { o₀ with state := stateDispatchEvents }
            = some (o₁, none, tr₁, em₁)
          ∧ o₁.events = []
          ∧ tr₁ = o₀.events ++ em₁
          ∧ trc = tr₁.map TraceEv.dispatched
              ++ (if o₁.isTransactionActive then [TraceEv.txCommit o₁.activeTx] else [])
              ++ o₁.after.map TraceEv.hookRun) := by
  have hcons := dispatchEvents_conserves hub htame
  constructor
  · intro fuel o o' err tr em h
    obtain ⟨hc, hn⟩ := hcons fuel o o' err tr em h
    refine ⟨hc, fun he => ?_⟩
    have hempty := hn he
    refine ⟨hempty, ?_⟩
    rw [hempty] at hc
    simpa using hc
  · intro fuel o₀ oc trc hst h
    obtain ⟨o₁, tr₁, em₁, hde, htr⟩ :=
      commit_success_shape hub txC txR fuel o₀ oc trc hst h
    obtain ⟨hc, hn⟩ := hcons fuel _ o₁ none tr₁ em₁ hde
    have hempty := hn rfl
    refine ⟨o₁, tr₁, em₁, hde, hempty, ?_, htr⟩
    rw [hempty] at hc
    simpa using hc

theorem C4_witness :
    ([⟨0, 0⟩, ⟨0, 1⟩] : List Event)
        ++ ({ state := stateDispatchEvents, activeTx := 0, events := [], after := [] } : OpCtx).events
      = ({ state := stateDispatchEvents, activeTx := 0, events := [⟨0, 0⟩], after := [] } : OpCtx).events
          ++ [⟨0, 1⟩]
    ∧ ((none : Option GoErr) = none →
        ({ state := stateDispatchEvents, activeTx := 0, events := [], after := [] } : OpCtx).events = []
        ∧ ([⟨0, 0⟩, ⟨0, 1⟩] : List Event)
            = ({ state := stateDispatchEvents, activeTx := 0, events := [⟨0, 0⟩], after := [] } : OpCtx).events
              ++ [⟨0, 1⟩]) :=
  (C4_fifo_drain
    (Hub.mk fun t => if t = 0
      then [Handler.mk fun o e =>
        (if e.payload = 0 then { o with events := o.events ++ [⟨0, 1⟩] } else o, none)]
      else [])
    (fun _ => none) (fun _ => none)
    (by
      intro t h hh o e
      by_cases ht : t = 0
      · subst ht
        simp at hh
        subst hh
        by_cases hp : e.payload = 0
        · exact ⟨[⟨0, 1⟩], by simp [hp]⟩
        · exact ⟨[], by simp [hp]⟩
      · simp [ht] at hh)).1
    3
    { state := stateDispatchEvents, activeTx := 0, events := [⟨0, 0⟩], after := [] }
    { state := stateDispatchEvents, activeTx := 0, events := [], after := [] }
    none [⟨0, 0⟩, ⟨0, 1⟩] [⟨0, 1⟩] rfl

/-- C3 counterexample: when the transaction factory passed to `InvokeTx`
fails, `InvokeTx` returns the factory error with the operation body never
invoked and with neither `commit()` nor `rollback()` attempted — refuting
the claim that every call of `InvokeTx` attempts exactly one of the two. -/
theorem C3_counterexample :
    InvokeTx (Hub.mk fun _ => []) (fun _ => (0, some (GoErr.user 7)))
        (fun _ => none) (fun _ => none)
        (fun (o : OpCtx) (_ : Nat) => (o, BodyResult.ret (some (0 : Nat)) none)) 5
      = some (none, some (GoErr.user 7), [])
    ∧ countAttempts [] = 0 ∧ countBody [] = 0 := by
  exact ⟨rfl, rfl, rfl⟩

/-- C3 (amended): for every call of `Invoke`, the operation body is invoked
exactly once, exactly one of commit/rollback is attempted, and the output
is non-nil only on success. For `InvokeTx` the same holds whenever the
eager transaction-factory call succeeds; when the factory fails, `InvokeTx`
returns the factory error at once — the body is not invoked and neither
commit nor rollback is attempted. -/
theorem C3_invoke_once_amended {O : Type} (hub : Hub) (txC txR : Nat → Option GoErr)
    (body : OpCtx → OpCtx × BodyResult O) (p : Nat → Nat × Option GoErr)
    (tbody : OpCtx → Nat → OpCtx × BodyResult O) (fuel : Nat) :
    (∀ out err tr, Invoke hub txC txR body fuel = some (out, err, tr) →
        countBody tr = 1 ∧ countAttempts tr = 1 ∧ (out ≠ none → err = none))
    ∧ (∀ out err tr, InvokeTx hub p txC txR tbody fuel = some (out, err, tr) →
        countBody tr ≤ 1 ∧ countAttempts tr ≤ 1 ∧ (out ≠ none → err = none)
        ∧ ((p 0).2 = none → countBody tr = 1 ∧ countAttempts tr = 1)
        ∧ (∀ e, (p 0).2 = some e →
            tr = [] ∧ err = some e ∧ countBody tr = 0 ∧ countAttempts tr = 0)) := by
  constructor
  · exact Invoke_counts hub txC txR body fuel
  · intro out err tr h
    rcases hp : (p 0).2 with _ | e
    · rw [InvokeTx_fac_ok hub p txC txR tbody fuel hp] at h
      have hc := Invoke_counts hub txC txR _ fuel out err tr h
      refine ⟨le_of_eq hc.1, le_of_eq hc.2.1, hc.2.2,
        fun _ => ⟨hc.1, hc.2.1⟩, ?_⟩
      intro e he
      simp at he
    · rw [InvokeTx_fac_error hub p txC txR tbody fuel e hp] at h
      simp at h
      obtain ⟨h1, h2, h3⟩ := h
      subst h1; subst h2; subst h3
      refine ⟨by simp [countBody], by simp [countAttempts], by simp, ?_, ?_⟩
      · intro hnone; simp at hnone
      · intro e' he'
        injection he' with heq
        exact ⟨rfl, by rw [heq], rfl, rfl⟩

theorem C3_witness :
    countBody [TraceEv.bodyRun, TraceEv.commitAttempt] = 1
    ∧ countAttempts [TraceEv.bodyRun, TraceEv.commitAttempt] = 1
    ∧ ((some 2 : Option Nat) ≠ none → (none : Option GoErr) = none) :=
  (C3_invoke_once_amended (Hub.mk fun _ => []) (fun _ => none) (fun _ => none)
      (fun (o : OpCtx) => (o, BodyResult.ret (some 2) none))
      (fun _ => (3, none))
      (fun (o : OpCtx) (t : Nat) => (o, BodyResult.ret (some t) none)) 1).1
    (some 2) none [TraceEv.bodyRun, TraceEv.commitAttempt] rfl

theorem C6_witness :
    Invoke (Hub.mk fun _ => []) (fun _ => none) (fun _ => none)
        (fun (o : OpCtx) => (({ o with activeTx := 9 },
          BodyResult.panics (PanicVal.intVal 42)) : OpCtx × BodyResult Nat)) 1
      = some (none, some (GoErr.errRecoveredInt 42),
          [TraceEv.bodyRun, TraceEv.rollbackAttempt, TraceEv.txRollback 9])
    ∧ GoErr.errRecoveredInt 42 ≠ GoErr.user 0 :=
  ⟨(C6_panic_recovered (Hub.mk fun _ => []) (fun _ => none) (fun _ => none)
      (fun (o : OpCtx) => (({ o with activeTx := 9 },
        BodyResult.panics (PanicVal.intVal 42)) : OpCtx × BodyResult Nat)) 1
      (PanicVal.intVal 42) rfl rfl).1,
   (C6_panic_recovered (Hub.mk fun _ => []) (fun _ => none) (fun _ => none)
      (fun (o : OpCtx) => (({ o with activeTx := 9 },
        BodyResult.panics (PanicVal.intVal 42)) : OpCtx × BodyResult Nat)) 1
      (PanicVal.intVal 42) rfl rfl).2.1 0⟩
